import Mathlib

/-!
Verification of the LC-3 virtual machine (`src/lc3/*.rs`, `src/vm/*.rs`).

The Rust source is shallowly embedded: `u16` values are `Nat` with explicit
`% 65536` wherever the source wraps, fallible operations return an `Outcome`
that distinguishes a returned `Err`, a Rust panic, and `process::exit`, and
the byte-stream collaborators (`impl Read` / `impl Write`) are lists of bytes.
-/

namespace LC3

/-- Error taxonomy from `src/lc3/error.rs`. `IoError` stands for
`Error::IoError(std::io::Error)`; the wrapped cause is not modelled. -/
inductive Error where
  | UnknownRegister (value : Nat)
  | UnknownInstruction (value : Nat)
  | UnknownTrapRoutine (value : Nat)
  | IoError
deriving DecidableEq, Repr

/-- Result of running a piece of the Rust code: a normal value, a returned
`Err(e)`, a Rust panic (`unwrap` of `None`/`Err`, out-of-bounds array index,
or arithmetic overflow of an unchecked `+` under the crate's default dev
profile, where overflow checks are on), or a call to `process::exit(code)`.
`err`, `panic` and `exit` all abort the surrounding computation. -/
inductive Outcome (α : Type) where
  | ok (a : α)
  | err (e : Error)
  | panic
  | exit (code : Nat)
deriving Repr

/-- Sequencing of fallible Rust steps: `?`-propagation for `err`, and panics
and process exits abort everything downstream. -/
def Outcome.bind {α β : Type} : Outcome α → (α → Outcome β) → Outcome β
  | .ok a, f => f a
  | .err e, _ => .err e
  | .panic, _ => .panic
  | .exit c, _ => .exit c

instance : Monad Outcome where
  pure := Outcome.ok
  bind := Outcome.bind

/-- Lift a decode result (`Result<_, Error>` in Rust) into an `Outcome`,
as the `?` operator does in `execute_program`. -/
def Outcome.ofExcept {α : Type} : Except Error α → Outcome α
  | .ok a => .ok a
  | .error e => .err e

/-- Wrapping 16-bit addition: `u16::overflowing_add` (the wrapped value;
the carry flag is discarded by every call site). -/
def oadd (a b : Nat) : Nat := (a + b) % 65536

/-- Rust's unchecked `+` / `+=` on `u16` under the crate's default (dev)
profile: overflow checks are enabled, so a sum past `u16::MAX` panics
instead of wrapping. Used by the source at `registers.get(PC) + pc_offset`
in `LoadIndirect`, `address += 1` in `PUTS`/`PUTSP` and `load_program`,
and the program counter bump in `execute_program`. -/
def uadd (a b : Nat) : Outcome Nat :=
  if a + b < 65536 then .ok (a + b) else .panic

/-- The ten register slots of `src/lc3/registers.rs::RegistersEnum`. -/
inductive RegistersEnum where
  | r0 | r1 | r2 | r3 | r4 | r5 | r6 | r7 | programCounter | condition
deriving DecidableEq, Repr

/-- `RegistersEnum as usize`: the `repr(u8)` discriminants 0..9. -/
def RegistersEnum.toIndex : RegistersEnum → Nat
  | .r0 => 0
  | .r1 => 1
  | .r2 => 2
  | .r3 => 3
  | .r4 => 4
  | .r5 => 5
  | .r6 => 6
  | .r7 => 7
  | .programCounter => 8
  | .condition => 9

/-- `TryFrom<u16> for RegistersEnum`: values 0..9 name a register, anything
else is `Error::UnknownRegister(value)` (the Rust match on integer literals
is an equality chain). -/
def RegistersEnum.tryFrom (value : Nat) : Except Error RegistersEnum :=
  if value = 0 then .ok .r0
  else if value = 1 then .ok .r1
  else if value = 2 then .ok .r2
  else if value = 3 then .ok .r3
  else if value = 4 then .ok .r4
  else if value = 5 then .ok .r5
  else if value = 6 then .ok .r6
  else if value = 7 then .ok .r7
  else if value = 8 then .ok .programCounter
  else if value = 9 then .ok .condition
  else .error (.UnknownRegister value)

/-- `src/lc3/registers.rs::ConditionFlag` discriminants. -/
def FL_POS : Nat := 1
/-- `ConditionFlag::Zero = 1 << 1`. -/
def FL_ZRO : Nat := 2
/-- `ConditionFlag::Negative = 1 << 2`. -/
def FL_NEG : Nat := 4

/-- `pub const PROGRAM_START: u16 = 0x3000`. -/
def PROGRAM_START : Nat := 0x3000

/-- `Registers([u16; 10])`, modelled as the map from array index to content;
only indices 0..9 are ever used. -/
structure Registers where
  data : Nat → Nat

/-- `Registers::get`: `self.0[register as usize]`. -/
def Registers.get (r : Registers) (register : RegistersEnum) : Nat :=
  r.data register.toIndex

/-- `Registers::set`: `self.0[register as usize] = value`. -/
def Registers.set (r : Registers) (register : RegistersEnum) (value : Nat) : Registers :=
  ⟨fun i => if i = register.toIndex then value else r.data i⟩

/-- `Registers::default`: all ten slots zero, then `ProgramCounter` is set
to `PROGRAM_START`. -/
def Registers.default : Registers :=
  (Registers.mk fun _ => 0).set .programCounter PROGRAM_START

/-- `Registers::update_flags`: inspect the named register and assign the
`Condition` register one of the three flag discriminants. -/
def Registers.update_flags (r : Registers) (register : RegistersEnum) : Registers :=
  let value := r.get register
  if value = 0 then r.set .condition FL_ZRO
  else if value >>> 15 ≠ 0 then r.set .condition FL_NEG
  else r.set .condition FL_POS

/-- `sign_extend(x, bit_count)` from `src/lc3/instructions.rs`: if bit
`bit_count - 1` of `x` is set, OR in `0xFFFF << bit_count` (a `u16` shift,
so the mask is truncated to 16 bits). -/
def sign_extend (x : Nat) (bit_count : Nat) : Nat :=
  if (x >>> (bit_count - 1)) &&& 1 ≠ 0 then x ||| ((0xFFFF <<< bit_count) % 65536) else x

/-- The six defined trap routines. -/
inductive TrapRoutine where
  | GETC | OUT | PUTS | IN | PUTSP | HALT
deriving DecidableEq, Repr

/-- `TryFrom<u16> for TrapRoutine`: vectors 0x20..0x25, anything else is
`Error::UnknownTrapRoutine(value)`. -/
def TrapRoutine.tryFrom (value : Nat) : Except Error TrapRoutine :=
  if value = 0x20 then .ok .GETC
  else if value = 0x21 then .ok .OUT
  else if value = 0x22 then .ok .PUTS
  else if value = 0x23 then .ok .IN
  else if value = 0x24 then .ok .PUTSP
  else if value = 0x25 then .ok .HALT
  else .error (.UnknownTrapRoutine value)

/-- Operand 2 of ADD/AND: a sign-extended 5-bit immediate or a register. -/
inductive RegisterMode where
  | Immediate (value : Nat)
  | Register (register : RegistersEnum)
deriving DecidableEq, Repr

/-- JSR's two forms: long (11-bit PC-relative offset) or register. -/
inductive JumpType where
  | Long (pc_offset : Nat)
  | Register (register : RegistersEnum)
deriving DecidableEq, Repr

/-- The decoded instruction set of `src/lc3/instructions.rs::Instructions`. -/
inductive Instructions where
  | Add (destination source1 : RegistersEnum) (source2 : RegisterMode)
  | And (destination source1 : RegistersEnum) (source2 : RegisterMode)
  | Branch (pc_offset condition_flag : Nat)
  | Not (destination source1 : RegistersEnum)
  | Jump (source : RegistersEnum)
  | JumpRegister (jump : JumpType)
  | Load (destination : RegistersEnum) (pc_offset : Nat)
  | LoadIndirect (destination : RegistersEnum) (pc_offset : Nat)
  | LoadRegister (destination source1 : RegistersEnum) (offset : Nat)
  | LoadEffectiveAddress (destination : RegistersEnum) (pc_offset : Nat)
  | Store (source : RegistersEnum) (pc_offset : Nat)
  | StoreIndirect (source : RegistersEnum) (pc_offset : Nat)
  | StoreRegister (source1 source2 : RegistersEnum) (offset : Nat)
  | Trap (routine : TrapRoutine)
  | RES
  | RTI
deriving DecidableEq, Repr

/-- `Instructions::read`: decode a raw 16-bit word by its top 4 bits
(`value >> 12`); the final arm is the defensive `UnknownInstruction`. -/
def Instructions.read (value : Nat) : Except Error Instructions :=
  if value >>> 12 = 0 then
    .ok (.Branch (sign_extend (value &&& 0x1FF) 9) ((value >>> 9) &&& 0x7))
  else if value >>> 12 = 1 then do
    let rA ← RegistersEnum.tryFrom ((value >>> 9) &&& 0x7)
    let rB ← RegistersEnum.tryFrom ((value >>> 6) &&& 0x7)
    if (value >>> 5) &&& 0x1 > 0 then
      pure (.Add rA rB (.Immediate (sign_extend (value &&& 0x1F) 5)))
    else do
      let rC ← RegistersEnum.tryFrom (value &&& 0x7)
      pure (.Add rA rB (.Register rC))
  else if value >>> 12 = 2 then do
    let rA ← RegistersEnum.tryFrom ((value >>> 9) &&& 0x7)
    pure (.Load rA (sign_extend (value &&& 0x1FF) 9))
  else if value >>> 12 = 3 then do
    let rA ← RegistersEnum.tryFrom ((value >>> 9) &&& 0x7)
    pure (.Store rA (sign_extend (value &&& 0x1FF) 9))
  else if value >>> 12 = 4 then
    if (value >>> 11) &&& 1 ≠ 0 then
      .ok (.JumpRegister (.Long (sign_extend (value &&& 0x7FF) 11)))
    else do
      let rA ← RegistersEnum.tryFrom ((value >>> 6) &&& 0x7)
      pure (.JumpRegister (.Register rA))
  else if value >>> 12 = 5 then do
    let rA ← RegistersEnum.tryFrom ((value >>> 9) &&& 0x7)
    let rB ← RegistersEnum.tryFrom ((value >>> 6) &&& 0x7)
    if (value >>> 5) &&& 0x1 > 0 then
      pure (.And rA rB (.Immediate (sign_extend (value &&& 0x1F) 5)))
    else do
      let rC ← RegistersEnum.tryFrom (value &&& 0x7)
      pure (.And rA rB (.Register rC))
  else if value >>> 12 = 6 then do
    let rA ← RegistersEnum.tryFrom ((value >>> 9) &&& 0x7)
    let rB ← RegistersEnum.tryFrom ((value >>> 6) &&& 0x7)
    pure (.LoadRegister rA rB (sign_extend (value &&& 0x3F) 6))
  else if value >>> 12 = 7 then do
    let rA ← RegistersEnum.tryFrom ((value >>> 9) &&& 0x7)
    let rB ← RegistersEnum.tryFrom ((value >>> 6) &&& 0x7)
    pure (.StoreRegister rA rB (sign_extend (value &&& 0x3F) 6))
  else if value >>> 12 = 8 then .ok .RTI
  else if value >>> 12 = 9 then do
    let rA ← RegistersEnum.tryFrom ((value >>> 9) &&& 0x7)
    let rB ← RegistersEnum.tryFrom ((value >>> 6) &&& 0x7)
    pure (.Not rA rB)
  else if value >>> 12 = 10 then do
    let rA ← RegistersEnum.tryFrom ((value >>> 9) &&& 0x7)
    pure (.LoadIndirect rA (sign_extend (value &&& 0x1FF) 9))
  else if value >>> 12 = 11 then do
    let rA ← RegistersEnum.tryFrom ((value >>> 9) &&& 0x7)
    pure (.StoreIndirect rA (sign_extend (value &&& 0x1FF) 9))
  else if value >>> 12 = 12 then do
    let rA ← RegistersEnum.tryFrom ((value >>> 6) &&& 0x7)
    pure (.Jump rA)
  else if value >>> 12 = 13 then .ok .RES
  else if value >>> 12 = 14 then do
    let rA ← RegistersEnum.tryFrom ((value >>> 9) &&& 0x7)
    pure (.LoadEffectiveAddress rA (sign_extend (value &&& 0x1FF) 9))
  else if value >>> 12 = 15 then do
    let routine ← TrapRoutine.tryFrom (value &&& 0xFF)
    pure (.Trap routine)
  else .error (.UnknownInstruction value)

/-- The length of the backing array of `Memory`: the source declares
`Memory([u16; u16::MAX as usize])`, i.e. 65535 elements (not 65536). -/
def MEM_LEN : Nat := 65535

/-- `MemoryMappedReg::Kbsr`, the keyboard status register address. -/
def Kbsr : Nat := 0xFE00
/-- `MemoryMappedReg::Kbdr`, the keyboard data register address. -/
def Kbdr : Nat := 0xFE02

/-- `Memory([u16; u16::MAX as usize])`, modelled as the map from array index
to content; indexing at or past `MEM_LEN` panics in `read`/`write`. -/
structure Memory where
  data : Nat → Nat

/-- `Memory::default`: all words zero. -/
def Memory.default : Memory := ⟨fun _ => 0⟩

/-- `Memory::max`: `u16::MAX`. -/
def Memory.max (_ : Memory) : Nat := 65535

/-- `Memory::write`: `self.0[address as usize] = value;` — panics when
`address` is not a valid index of the 65535-element array. -/
def Memory.write (m : Memory) (address value : Nat) : Outcome Memory :=
  if address < MEM_LEN then .ok ⟨fun i => if i = address then value else m.data i⟩
  else .panic

/-- `Memory::handle_keyboard`: `read_exact` into a two-byte buffer (the
`unwrap` panics when fewer than two input bytes remain); if the first byte
is non-zero, set `Kbsr` to `1 << 15` and store the byte in `Kbdr`,
otherwise clear `Kbsr`. Returns the updated memory and remaining input. -/
def Memory.handle_keyboard (m : Memory) : List Nat → Outcome (Memory × List Nat)
  | b0 :: _b1 :: rest =>
    if b0 ≠ 0 then do
      let m1 ← m.write Kbsr (1 <<< 15)
      let m2 ← m1.write Kbdr b0
      pure (m2, rest)
    else do
      let m1 ← m.write Kbsr 0
      pure (m1, rest)
  | _ => .panic

/-- `Memory::read`: a read at `Kbsr` first polls the keyboard; then the word
at `address` is returned (panicking at or past the 65535-element bound).
Returns the value, the updated memory, and the remaining input. -/
def Memory.read (m : Memory) (address : Nat) (input : List Nat) :
    Outcome (Nat × Memory × List Nat) := do
  let (m1, input1) ←
    if address = Kbsr then m.handle_keyboard input else pure (m, input)
  if address < MEM_LEN then pure (m1.data address, m1, input1) else .panic

/-- The output collaborator (`impl Write`): bytes written but not yet
flushed, and bytes already pushed through `flush`. A written character is
recorded as its code point (`u8 as char` of the low byte at each call site). -/
structure OutputSink where
  pending : List Nat
  flushed : List Nat
deriving DecidableEq, Repr

/-- `write!(output, "{character}")`. -/
def OutputSink.write (o : OutputSink) (c : Nat) : OutputSink :=
  { o with pending := o.pending ++ [c] }

/-- `output.flush()`. -/
def OutputSink.flush (o : OutputSink) : OutputSink :=
  ⟨[], o.flushed ++ o.pending⟩

/-- An empty output sink (fresh `stdout` model). -/
def OutputSink.empty : OutputSink := ⟨[], []⟩

/-- The mutable state threaded through `Instructions::execute`: the register
file, the memory, and the two stream collaborators. -/
structure World where
  registers : Registers
  memory : Memory
  input : List Nat
  output : OutputSink

/-- `memory.read(address, input)` as a step on the whole `World`. -/
def World.memRead (w : World) (address : Nat) : Outcome (Nat × World) :=
  (w.memory.read address w.input).bind fun v =>
    .ok (v.1, { w with memory := v.2.1, input := v.2.2 })

/-- `memory.write(address, value)` as a step on the whole `World`. -/
def World.memWrite (w : World) (address value : Nat) : Outcome World :=
  (w.memory.write address value).bind fun m => .ok { w with memory := m }

/-- The `PUTS` loop of `src/lc3/instructions.rs`: write the low byte of each
word as one character, stepping `address` with the unchecked `+= 1`, until a
zero word. `fuel` is a modelling device only: each iteration increases
`address` by one and `Memory.read` panics once `address` reaches the array
bound, so with fuel 65536 the zero fuel case is never reached. -/
def puts_loop (w : World) (address : Nat) : Nat → Outcome World
  | 0 => .panic
  | fuel + 1 => do
    let (byte, w) ← w.memRead address
    if byte ≠ 0 then do
      let w := { w with output := w.output.write (byte % 256) }
      let address ← uadd address 1
      puts_loop w address fuel
    else
      pure w

/-- The `PUTSP` loop: like `puts_loop` but each word emits its low byte then
its high byte. -/
def putsp_loop (w : World) (address : Nat) : Nat → Outcome World
  | 0 => .panic
  | fuel + 1 => do
    let (byte, w) ← w.memRead address
    if byte ≠ 0 then do
      let w := { w with output := (w.output.write (byte % 256)).write (byte >>> 8) }
      let address ← uadd address 1
      putsp_loop w address fuel
    else
      pure w

/-- `Instructions::execute` from `src/lc3/instructions.rs`, one decoded
instruction applied to the register file, memory and streams. `RES`/`RTI`
hit `unreachable!()` (a panic); `HALT` flushes and calls `process::exit(1)`;
the `IN` trap panics (`Option::unwrap`) when the input stream is exhausted,
while `GETC` surfaces the short read as an `Err` via `?`. -/
def Instructions.execute (i : Instructions) (w : World) : Outcome World :=
  match i with
  | .Add destination source1 source2 =>
    let result :=
      match source2 with
      | .Immediate imm => oadd (w.registers.get source1) imm
      | .Register s2 => oadd (w.registers.get source1) (w.registers.get s2)
    .ok { w with registers := (w.registers.set destination result).update_flags destination }
  | .LoadIndirect destination pc_offset => do
    let a ← uadd (w.registers.get .programCounter) pc_offset
    let (address, w) ← w.memRead a
    let (v, w) ← w.memRead address
    pure { w with registers := (w.registers.set destination v).update_flags destination }
  | .RES => .panic
  | .RTI => .panic
  | .And destination source1 source2 =>
    let result :=
      match source2 with
      | .Immediate imm => w.registers.get source1 &&& imm
      | .Register s2 => w.registers.get source1 &&& w.registers.get s2
    .ok { w with registers := (w.registers.set destination result).update_flags destination }
  | .Not destination source1 =>
    .ok { w with registers :=
      (w.registers.set destination (w.registers.get source1 ^^^ 65535)).update_flags destination }
  | .Branch pc_offset condition_flag =>
    if condition_flag &&& w.registers.get .condition > 0 then
      .ok { w with registers :=
        w.registers.set .programCounter (oadd (w.registers.get .programCounter) pc_offset) }
    else
      .ok w
  | .Jump source =>
    .ok { w with registers := w.registers.set .programCounter (w.registers.get source) }
  | .JumpRegister jump =>
    let regs := w.registers.set .r7 (w.registers.get .programCounter)
    match jump with
    | .Long pc_offset =>
      .ok { w with registers := regs.set .programCounter (oadd (regs.get .programCounter) pc_offset) }
    | .Register register =>
      .ok { w with registers := regs.set .programCounter (regs.get register) }
  | .Load destination pc_offset => do
    let (v, w') ← w.memRead (oadd (w.registers.get .programCounter) pc_offset)
    pure { w' with registers := (w'.registers.set destination v).update_flags destination }
  | .LoadRegister destination source1 offset => do
    let (v, w') ← w.memRead (oadd (w.registers.get source1) offset)
    pure { w' with registers := (w'.registers.set destination v).update_flags destination }
  | .LoadEffectiveAddress destination pc_offset =>
    let result := oadd (w.registers.get .programCounter) pc_offset
    .ok { w with registers := (w.registers.set destination result).update_flags destination }
  | .Store source pc_offset =>
    w.memWrite (oadd (w.registers.get .programCounter) pc_offset) (w.registers.get source)
  | .StoreIndirect source pc_offset => do
    let (address, w') ← w.memRead (oadd (w.registers.get .programCounter) pc_offset)
    w'.memWrite address (w'.registers.get source)
  | .StoreRegister source1 source2 offset =>
    w.memWrite (oadd (w.registers.get source2) offset) (w.registers.get source1)
  | .Trap routine =>
    match routine with
    | .GETC =>
      match w.input with
      | [] => .err .IoError
      | b :: rest =>
        .ok { w with registers := w.registers.set .r0 b, input := rest }
    | .OUT =>
      .ok { w with output := w.output.write (w.registers.get .r0 % 256) }
    | .PUTS => do
      let w ← puts_loop w (w.registers.get .r0) 65536
      pure { w with output := w.output.flush }
    | .IN =>
      let w := { w with output := w.output.flush }
      match w.input with
      | [] => .panic
      | b :: rest =>
        .ok { w with registers := w.registers.set .r0 b, input := rest }
    | .PUTSP => do
      let w ← putsp_loop w (w.registers.get .r0) 65536
      pure { w with output := w.output.flush }
    | .HALT =>
      .exit 1

/-- The machine of `src/lc3/machine.rs`. -/
structure LittleComputer3 where
  memory : Memory
  registers : Registers

/-- `LittleComputer3::default()`. -/
def LittleComputer3.default : LittleComputer3 :=
  ⟨Memory.default, Registers.default⟩

/-- The word-loading loop of `LittleComputer3::load_program`: read big-endian
two-byte groups, writing each word at the next address (unchecked `+= 1`).
`read_exact` reports `UnexpectedEof` both when zero bytes and when one byte
remain, and the source breaks out of the loop on that kind in both cases. -/
def load_loop (m : Memory) (address : Nat) : List Nat → Outcome Memory
  | b0 :: b1 :: rest => do
    let m' ← m.write address (b0 * 256 + b1)
    let address' ← uadd address 1
    load_loop m' address' rest
  | _ => .ok m

/-- `LittleComputer3::load_program`: the first two bytes are the big-endian
origin (a short read here is surfaced as an `Err` via `?`), then the word
loop runs until end-of-stream. -/
def LittleComputer3.load_program (lc : LittleComputer3) (source : List Nat) :
    Outcome LittleComputer3 :=
  match source with
  | b0 :: b1 :: rest =>
    (load_loop lc.memory (b0 * 256 + b1) rest).bind fun m =>
      .ok { lc with memory := m }
  | _ => .err .IoError

/-- One pass of the fetch-decode-execute loop of
`LittleComputer3::execute_program`: while `PC < u16::MAX`, fetch the word at
`PC` through `Memory::read` (so a fetch at `Kbsr` polls the keyboard),
decode it (`?` on failure), bump `PC` by the unchecked `+ 1`, and execute.
`fuel` bounds the number of iterations; running out of fuel reports the
state reached so far, exactly like the loop guard ending the loop. -/
def execute_program_loop (w : World) : Nat → Outcome World
  | 0 => .ok w
  | fuel + 1 =>
    if w.registers.get .programCounter < 65535 then do
      let (word, w) ← w.memRead (w.registers.get .programCounter)
      let instruction ← Outcome.ofExcept (Instructions.read word)
      let pc' ← uadd (w.registers.get .programCounter) 1
      let w := { w with registers := w.registers.set .programCounter pc' }
      let w ← instruction.execute w
      execute_program_loop w fuel
    else
      .ok w

/-- `LittleComputer3::execute_program` (the `debug` trace printing is a
side-effect-free host concern and is not modelled), run on a given input
stream and a fresh output sink, with a fuel bound on loop iterations. -/
def LittleComputer3.execute_program (lc : LittleComputer3) (input : List Nat)
    (fuel : Nat) : Outcome World :=
  execute_program_loop ⟨lc.registers, lc.memory, input, OutputSink.empty⟩ fuel

/-- The byte stream of a list of words, each word given as its two big-endian
bytes `(high, low)`; used to state loader properties. -/
def wordsBytes : List (Nat × Nat) → List Nat
  | [] => []
  | p :: rest => p.1 :: p.2 :: wordsBytes rest

/-- The big-endian word value of a `(high, low)` byte pair. -/
def beWord (p : Nat × Nat) : Nat := p.1 * 256 + p.2

/-- Exactly one of the three condition flags: the `Condition` register holds
one of the `ConditionFlag` discriminants (they are distinct powers of two,
so holding one discriminant sets exactly one of the three flags). -/
def exactlyOneFlagSet (v : Nat) : Prop :=
  v = FL_POS ∨ v = FL_ZRO ∨ v = FL_NEG

instance (v : Nat) : Decidable (exactlyOneFlagSet v) := by
  unfold exactlyOneFlagSet; infer_instance

/-! ### Helper lemmas -/

@[simp] theorem Outcome.bind_ok {α β : Type} (a : α) (f : α → Outcome β) :
    Outcome.bind (.ok a) f = f a := rfl

@[simp] theorem Outcome.bind_err {α β : Type} (e : Error) (f : α → Outcome β) :
    Outcome.bind (.err e) f = .err e := rfl

@[simp] theorem Outcome.bind_panic {α β : Type} (f : α → Outcome β) :
    Outcome.bind .panic f = .panic := rfl

@[simp] theorem Outcome.bind_exit {α β : Type} (c : Nat) (f : α → Outcome β) :
    Outcome.bind (.exit c) f = .exit c := rfl

@[simp] theorem Outcome.monad_bind {α β : Type} (x : Outcome α) (f : α → Outcome β) :
    x >>= f = x.bind f := rfl

@[simp] theorem Outcome.monad_pure {α : Type} (a : α) :
    (pure a : Outcome α) = .ok a := rfl

@[simp] theorem ebind_eq {α β : Type} (x : Except Error α) (f : α → Except Error β) :
    x >>= f = Except.bind x f := rfl

@[simp] theorem ebind_ok {α β : Type} (a : α) (f : α → Except Error β) :
    Except.bind (.ok a) f = f a := rfl

@[simp] theorem ebind_error {α β : Type} (e : Error) (f : α → Except Error β) :
    Except.bind (.error e : Except Error α) f = .error e := rfl

@[simp] theorem epure_eq {α : Type} (a : α) :
    (pure a : Except Error α) = .ok a := rfl

theorem RegistersEnum.toIndex_inj (a b : RegistersEnum) :
    a.toIndex = b.toIndex ↔ a = b := by
  cases a <;> cases b <;> decide

@[simp] theorem Registers.get_set (r : Registers) (reg reg2 : RegistersEnum) (v : Nat) :
    (r.set reg v).get reg2 = if reg2.toIndex = reg.toIndex then v else r.get reg2 := rfl

theorem RegistersEnum.tryFrom_lt (x : Nat) (h : x < 10) :
    ∃ r, RegistersEnum.tryFrom x = Except.ok r := by
  interval_cases x <;> exact ⟨_, rfl⟩

theorem RegistersEnum.tryFrom_and7 (x : Nat) :
    ∃ r, RegistersEnum.tryFrom (x &&& 7) = Except.ok r := by
  refine RegistersEnum.tryFrom_lt _ ?_
  have : x &&& 7 ≤ 7 := Nat.and_le_right
  omega

/-- `update_flags` always stores one of the three flag discriminants. -/
theorem Registers.update_flags_flag (r : Registers) (register : RegistersEnum) :
    exactlyOneFlagSet ((r.update_flags register).get .condition) := by
  unfold Registers.update_flags
  by_cases h0 : r.get register = 0
  · simp [h0, exactlyOneFlagSet]
  · by_cases h15 : r.get register >>> 15 ≠ 0
    · simp [h0, h15, exactlyOneFlagSet]
    · simp [h0, h15, exactlyOneFlagSet]

/-- `update_flags` touches only the `Condition` slot. -/
theorem Registers.update_flags_other (r : Registers) (register reg2 : RegistersEnum)
    (h : reg2 ≠ .condition) :
    (r.update_flags register).get reg2 = r.get reg2 := by
  have h9 : reg2.toIndex ≠ RegistersEnum.toIndex .condition := by
    rw [Ne, RegistersEnum.toIndex_inj]; exact h
  unfold Registers.update_flags
  by_cases h0 : r.get register = 0
  · simp [h0, h9]
  · by_cases h15 : r.get register >>> 15 ≠ 0
    · simp [h0, h15, h9]
    · simp [h0, h15, h9]

/-- A memory read never changes the register file. -/
theorem World.memRead_registers (w : World) (a v : Nat) (w2 : World)
    (h : w.memRead a = .ok (v, w2)) : w2.registers = w.registers := by
  unfold World.memRead at h
  cases hr : w.memory.read a w.input with
  | ok t => rw [hr] at h; simp at h; rw [← h.2]
  | err e => rw [hr] at h; simp at h
  | panic => rw [hr] at h; simp at h
  | exit c => rw [hr] at h; simp at h

/-- A memory write never changes the register file. -/
theorem World.memWrite_registers (w : World) (a v : Nat) (w2 : World)
    (h : w.memWrite a v = .ok w2) : w2.registers = w.registers := by
  unfold World.memWrite at h
  cases hr : w.memory.write a v with
  | ok t => rw [hr] at h; simp at h; rw [← h]
  | err e => rw [hr] at h; simp at h
  | panic => rw [hr] at h; simp at h
  | exit c => rw [hr] at h; simp at h

/-- The `PUTS` loop never changes the register file. -/
theorem puts_loop_registers (fuel : Nat) :
    ∀ (w : World) (address : Nat) (w2 : World),
      puts_loop w address fuel = .ok w2 → w2.registers = w.registers := by
  induction fuel with
  | zero => intro w address w2 h; simp [puts_loop] at h
  | succ n ih =>
    intro w address w2 h
    unfold puts_loop at h
    cases hr : w.memRead address with
    | ok t =>
      rw [hr] at h
      obtain ⟨byte, w1⟩ := t
      have hw1 : w1.registers = w.registers := World.memRead_registers w address byte w1 hr
      simp at h
      by_cases hb : byte = 0
      · rw [if_pos hb] at h
        cases h
        exact hw1
      · rw [if_neg hb] at h
        cases hu : uadd address 1 with
        | ok a2 =>
          rw [hu] at h; simp at h
          rw [ih _ _ _ h]; exact hw1
        | err e => rw [hu] at h; simp at h
        | panic => rw [hu] at h; simp at h
        | exit c => rw [hu] at h; simp at h
    | err e => rw [hr] at h; simp at h
    | panic => rw [hr] at h; simp at h
    | exit c => rw [hr] at h; simp at h

/-- The `PUTSP` loop never changes the register file. -/
theorem putsp_loop_registers (fuel : Nat) :
    ∀ (w : World) (address : Nat) (w2 : World),
      putsp_loop w address fuel = .ok w2 → w2.registers = w.registers := by
  induction fuel with
  | zero => intro w address w2 h; simp [putsp_loop] at h
  | succ n ih =>
    intro w address w2 h
    unfold putsp_loop at h
    cases hr : w.memRead address with
    | ok t =>
      rw [hr] at h
      obtain ⟨byte, w1⟩ := t
      have hw1 : w1.registers = w.registers := World.memRead_registers w address byte w1 hr
      simp at h
      by_cases hb : byte = 0
      · rw [if_pos hb] at h
        cases h
        exact hw1
      · rw [if_neg hb] at h
        cases hu : uadd address 1 with
        | ok a2 =>
          rw [hu] at h; simp at h
          rw [ih _ _ _ h]; exact hw1
        | err e => rw [hu] at h; simp at h
        | panic => rw [hu] at h; simp at h
        | exit c => rw [hu] at h; simp at h
    | err e => rw [hr] at h; simp at h
    | panic => rw [hr] at h; simp at h
    | exit c => rw [hr] at h; simp at h

/-! ### Claim theorems -/

/-- C9: for every 16-bit register value `v`, `update_flags` sets the
`Condition` register to exactly one of the three flag values — `Zero` if
`v = 0`, `Negative` if the top bit of `v` is 1 (`v >> 15 = 1`), `Positive`
otherwise; the three flag values are pairwise distinct and no register
other than `Condition` is changed. -/
theorem update_flags_exactly_one (r : Registers) (register : RegistersEnum)
    (h : r.get register < 65536) :
    ((r.update_flags register).get .condition =
      if r.get register = 0 then FL_ZRO
      else if r.get register >>> 15 = 1 then FL_NEG
      else FL_POS)
    ∧ (FL_POS ≠ FL_ZRO ∧ FL_ZRO ≠ FL_NEG ∧ FL_POS ≠ FL_NEG)
    ∧ (∀ reg2, reg2 ≠ .condition →
        (r.update_flags register).get reg2 = r.get reg2) := by
  refine ⟨?_, by decide, fun reg2 h2 => Registers.update_flags_other r register reg2 h2⟩
  have hlt : r.get register >>> 15 < 2 := by
    rw [Nat.shiftRight_eq_div_pow]
    omega
  unfold Registers.update_flags
  by_cases h0 : r.get register = 0
  · simp [h0]
  · by_cases h15 : r.get register >>> 15 ≠ 0
    · have h1 : r.get register >>> 15 = 1 := by omega
      simp [h0, h15, h1]
    · have h1 : ¬ r.get register >>> 15 = 1 := by omega
      simp [h0, h15, h1]

/-- Witness for C9: at machine creation `R0` holds 0, so `update_flags R0`
sets the `Zero` flag. -/
theorem update_flags_exactly_one_witness :
    (Registers.default.update_flags .r0).get .condition = FL_ZRO := by
  have h := update_flags_exactly_one Registers.default .r0 (by decide)
  have h0 : Registers.default.get .r0 = 0 := rfl
  rw [h0] at h
  simpa using h.1

/-- C10: for every n-bit field `x` with `n ∈ {5, 6, 9, 11}`, `sign_extend`
returns `x` OR'd with the 16-bit value `0xFFFF << n` exactly when the
field's most significant bit (bit `n - 1`) is 1, and `x` unchanged when
that bit is 0. -/
theorem sign_extend_msb (n x : Nat) (hn : n = 5 ∨ n = 6 ∨ n = 9 ∨ n = 11)
    (hx : x < 2 ^ n) :
    sign_extend x n =
      if Nat.testBit x (n - 1) then x ||| ((0xFFFF <<< n) % 65536) else x := by
  have h2 : (x >>> (n - 1)) &&& 1 = x / 2 ^ (n - 1) % 2 := by
    rw [Nat.and_one_is_mod, Nat.shiftRight_eq_div_pow]
  have h3 : Nat.testBit x (n - 1) = decide (x / 2 ^ (n - 1) % 2 = 1) :=
    Nat.testBit_to_div_mod
  by_cases hb : x / 2 ^ (n - 1) % 2 = 1
  · rw [sign_extend, if_pos (by rw [h2]; omega), if_pos (by rw [h3]; simp [hb])]
  · rw [sign_extend, if_neg (by rw [h2]; omega), if_neg (by rw [h3]; simp [hb])]

/-- Witness for C10: the 9-bit field 0x100 has its MSB set, so it extends
to 0x100 OR 0xFE00 = 0xFF00. -/
theorem sign_extend_msb_witness : sign_extend 0x100 9 = 0xFF00 := by
  have h := sign_extend_msb 9 0x100 (by decide) (by decide)
  rw [h]
  decide

/-- C5 counterexample: at machine creation every register except the
program counter is zero, so the `Condition` register is 0 and none of
the three flags {Negative, Zero, Positive} is set — the claimed invariant
fails at the start of the machine's lifetime. -/
theorem condition_unset_at_creation :
    Registers.default.get .condition = 0 ∧
    ¬ exactlyOneFlagSet (Registers.default.get .condition) :=
  ⟨rfl, by decide⟩

/-- C1: reads and writes are NOT total over the full 65536-word space.
For addresses below 65535 (other than the keyboard status address, whose
read has side effects) a write followed by a read returns the written
value, but the backing array is declared `[u16; u16::MAX as usize]` —
65535 elements — so the address 0xFFFF (the value returned by `max()`)
is out of bounds and both `read` and `write` panic there. -/
theorem memory_read_write_max (m : Memory) (a v : Nat) (input : List Nat)
    (h1 : a < 65535) (h2 : a ≠ 0xFE00) :
    (∃ m2, m.write a v = .ok m2 ∧ m2.read a input = .ok (v, m2, input))
    ∧ m.write 0xFFFF v = .panic
    ∧ m.read 0xFFFF input = .panic
    ∧ m.max = 0xFFFF := by
  refine ⟨⟨⟨fun i => if i = a then v else m.data i⟩, ?_, ?_⟩, ?_, ?_, rfl⟩
  · simp [Memory.write, MEM_LEN, h1]
  · simp [Memory.read, Kbsr, MEM_LEN, h1, h2]
  · simp [Memory.write, MEM_LEN]
  · simp [Memory.read, Kbsr, MEM_LEN]

/-- Witness for C1 at address 0x3000 and value 7. -/
theorem memory_read_write_max_witness :
    (∃ m2, Memory.default.write 0x3000 7 = .ok m2
      ∧ m2.read 0x3000 [] = .ok (7, m2, []))
    ∧ Memory.default.write 0xFFFF 7 = .panic
    ∧ Memory.default.read 0xFFFF [] = .panic
    ∧ Memory.default.max = 0xFFFF :=
  memory_read_write_max Memory.default 0x3000 7 [] (by decide) (by decide)

/-- C4: a read at the keyboard status address 0xFE00 polls TWO bytes from
the input collaborator, not one: with input `b0 :: b1 :: rest` both `b0`
and `b1` are consumed (the read returns with remaining input `rest`), the
status word 0x8000 is returned and stored when `b0 ≠ 0`, the data register
gets `b0`, and a cleared status register results when `b0 = 0`; with fewer
than two bytes buffered the `read_exact(..).unwrap()` panics. Reads at
other (in-bounds) addresses consume no input and modify nothing. -/
theorem keyboard_poll_two_bytes (m : Memory) (b0 b1 : Nat) (rest input : List Nat)
    (a : Nat) (hb : b0 ≠ 0) (ha1 : a < 65535) (ha2 : a ≠ 0xFE00) :
    (∃ m2, m.read 0xFE00 (b0 :: b1 :: rest) = .ok (32768, m2, rest)
      ∧ m2.data 0xFE00 = 32768 ∧ m2.data 0xFE02 = b0
      ∧ ∀ i, i ≠ 0xFE00 → i ≠ 0xFE02 → m2.data i = m.data i)
    ∧ (∃ m2, m.read 0xFE00 (0 :: b1 :: rest) = .ok (0, m2, rest)
      ∧ m2.data 0xFE00 = 0
      ∧ ∀ i, i ≠ 0xFE00 → m2.data i = m.data i)
    ∧ m.read 0xFE00 [b0] = .panic
    ∧ m.read 0xFE00 [] = .panic
    ∧ m.read a input = .ok (m.data a, m, input) := by
  refine ⟨⟨⟨fun i => if i = 0xFE02 then b0 else if i = 0xFE00 then 32768 else m.data i⟩,
      ?_, ?_, ?_, ?_⟩,
    ⟨⟨fun i => if i = 0xFE00 then 0 else m.data i⟩, ?_, ?_, ?_⟩, ?_, ?_, ?_⟩
  · simp [Memory.read, Memory.handle_keyboard, Memory.write, Kbsr, Kbdr, MEM_LEN, hb]
  · simp
  · simp
  · intro i hi1 hi2
    simp [hi1, hi2]
  · simp [Memory.read, Memory.handle_keyboard, Memory.write, Kbsr, Kbdr, MEM_LEN]
  · simp
  · intro i hi1
    simp [hi1]
  · simp [Memory.read, Memory.handle_keyboard, Kbsr]
  · simp [Memory.read, Memory.handle_keyboard, Kbsr]
  · simp [Memory.read, Kbsr, MEM_LEN, ha1, ha2]

/-- Witness for C4: polling with buffered input `[65, 66]` consumes both
bytes. -/
theorem keyboard_poll_two_bytes_witness :
    (∃ m2, Memory.default.read 0xFE00 [65, 66] = .ok (32768, m2, [])
      ∧ m2.data 0xFE00 = 32768 ∧ m2.data 0xFE02 = 65
      ∧ ∀ i, i ≠ 0xFE00 → i ≠ 0xFE02 → m2.data i = Memory.default.data i)
    ∧ (∃ m2, Memory.default.read 0xFE00 [0, 66] = .ok (0, m2, [])
      ∧ m2.data 0xFE00 = 0
      ∧ ∀ i, i ≠ 0xFE00 → m2.data i = Memory.default.data i)
    ∧ Memory.default.read 0xFE00 [65] = .panic
    ∧ Memory.default.read 0xFE00 [] = .panic
    ∧ Memory.default.read 0x3000 [] = .ok (Memory.default.data 0x3000, Memory.default, []) := by
  have h := keyboard_poll_two_bytes Memory.default 65 66 [] [] 0x3000
    (by decide) (by decide) (by decide)
  exact h

/-- C6: with the input stream at end-of-stream, the GETC trap returns the
structured `Err(IoError)` via `?`, but the IN trap panics — its
`input.bytes().next()...unwrap()` unwraps `None` — instead of returning an
I/O error; when a byte is available both store it (zero-widened) in R0. -/
theorem trap_input_end_of_stream (w : World) (b : Nat) (rest : List Nat)
    (h : w.input = []) :
    Instructions.execute (.Trap .GETC) w = .err .IoError
    ∧ Instructions.execute (.Trap .IN) w = .panic
    ∧ (∀ w2 : World, w2.input = b :: rest →
        Instructions.execute (.Trap .GETC) w2 =
          .ok { w2 with registers := w2.registers.set .r0 b, input := rest })
    ∧ (∀ w2 : World, w2.input = b :: rest →
        Instructions.execute (.Trap .IN) w2 =
          .ok { w2 with registers := w2.registers.set .r0 b, input := rest, output := w2.output.flush }) := by
  obtain ⟨regs, mem, inp, out⟩ := w
  simp only at h
  subst h
  refine ⟨rfl, rfl, ?_, ?_⟩
  · intro w2 h2
    obtain ⟨regs2, mem2, inp2, out2⟩ := w2
    simp only at h2
    subst h2
    rfl
  · intro w2 h2
    obtain ⟨regs2, mem2, inp2, out2⟩ := w2
    simp only at h2
    subst h2
    rfl

/-- Witness for C6 on a concrete empty-input world and the byte 65. -/
theorem trap_input_end_of_stream_witness :
    Instructions.execute (.Trap .GETC)
      ⟨Registers.default, Memory.default, [], OutputSink.empty⟩ = .err .IoError
    ∧ Instructions.execute (.Trap .IN)
      ⟨Registers.default, Memory.default, [], OutputSink.empty⟩ = .panic
    ∧ (∀ w2 : World, w2.input = [65] →
        Instructions.execute (.Trap .GETC) w2 =
          .ok { w2 with registers := w2.registers.set .r0 65, input := [] })
    ∧ (∀ w2 : World, w2.input = [65] →
        Instructions.execute (.Trap .IN) w2 =
          .ok { w2 with registers := w2.registers.set .r0 65, input := [], output := w2.output.flush }) :=
  trap_input_end_of_stream ⟨Registers.default, Memory.default, [], OutputSink.empty⟩ 65 [] rfl

/-- C7: the address computations singled out by the spec do NOT wrap.
`LoadIndirect` computes `PC + pc_offset` with the unchecked `+` (panics on
overflow under the default profile, e.g. PC = 0xFFFF with offset 1), and
even an in-range address 0xFFFF makes the subsequent memory access panic
on the 65535-element array (PC = 0 with offset 0xFFFF); the loader's
`address += 1` walks into the same bound instead of wrapping, as does the
`PUTS` address increment. -/
theorem address_arithmetic_panics :
    Instructions.execute (.LoadIndirect .r0 1)
      ⟨Registers.default.set .programCounter 0xFFFF, Memory.default, [],
        OutputSink.empty⟩ = .panic
    ∧ Instructions.execute (.LoadIndirect .r0 0xFFFF)
      ⟨Registers.default.set .programCounter 0, Memory.default, [],
        OutputSink.empty⟩ = .panic
    ∧ load_loop Memory.default 0xFFFE [0x12, 0x34, 0x56, 0x78] = .panic
    ∧ Instructions.execute (.Trap .PUTS)
      ⟨Registers.default.set .r0 0xFFFE,
        Memory.mk (fun i => if i = 0xFFFE then 65 else 0), [],
        OutputSink.empty⟩ = .panic :=
  ⟨rfl, rfl, rfl, rfl⟩

/-- C2: executing the one-instruction program consisting solely of the HALT
trap (image `[0x30, 0x00, 0xF0, 0x25]`) makes the run loop terminate via
`process::exit(1)` — the `exit` outcome — and never via a normal return
(`ok`), for every loop fuel bound; the claimed Running → Halted transition
returned to the caller does not exist in the code. -/
theorem halt_exits_process (fuel : Nat) :
    (LittleComputer3.default.load_program [0x30, 0x00, 0xF0, 0x25]).bind
      (fun lc => lc.execute_program [] (fuel + 1)) = .exit 1
    ∧ ∀ w : World,
      (LittleComputer3.default.load_program [0x30, 0x00, 0xF0, 0x25]).bind
        (fun lc => lc.execute_program [] (fuel + 1)) ≠ .ok w := by
  have h : (LittleComputer3.default.load_program [0x30, 0x00, 0xF0, 0x25]).bind
      (fun lc => lc.execute_program [] (fuel + 1)) = .exit 1 := rfl
  refine ⟨h, fun w hw => ?_⟩
  rw [h] at hw
  exact Outcome.noConfusion hw

/-- Witness for C2 at the smallest fuel bound. -/
theorem halt_exits_process_witness :
    (LittleComputer3.default.load_program [0x30, 0x00, 0xF0, 0x25]).bind
      (fun lc => lc.execute_program [] 1) = .exit 1 :=
  (halt_exits_process 0).1

/-- Appending a single odd byte after the word-aligned part of the stream
does not change what the loader loop does: `read_exact` reports the
trailing byte as `UnexpectedEof`, which the loop treats as a clean break. -/
theorem load_loop_drop_odd (ws : List (Nat × Nat)) (b : Nat) :
    ∀ (m : Memory) (address : Nat),
      load_loop m address (wordsBytes ws ++ [b]) = load_loop m address (wordsBytes ws) := by
  induction ws with
  | nil => intro m address; rfl
  | cons p rest ih =>
    intro m address
    simp only [wordsBytes, List.cons_append]
    unfold load_loop
    cases hw : m.write address (p.1 * 256 + p.2) with
    | ok m2 =>
      simp only [hw, Outcome.monad_bind, Outcome.bind_ok]
      cases hu : uadd address 1 with
      | ok a2 => simp [hu, ih]
      | err e => simp [hu]
      | panic => simp [hu]
      | exit c => simp [hu]
    | err e => simp [hw]
    | panic => simp [hw]
    | exit c => simp [hw]

/-- The loader loop writes consecutive big-endian words at
`address, address + 1, ...` and leaves every other cell unchanged, as long
as the written range stays inside the backing array. -/
theorem load_loop_ok (ws : List (Nat × Nat)) :
    ∀ (m : Memory) (address : Nat), address + ws.length ≤ 65535 →
      ∃ m2, load_loop m address (wordsBytes ws) = .ok m2
        ∧ (∀ k (hk : k < ws.length), m2.data (address + k) = beWord (ws.get ⟨k, hk⟩))
        ∧ (∀ i, i < address ∨ address + ws.length ≤ i → m2.data i = m.data i) := by
  induction ws with
  | nil =>
    intro m address h
    refine ⟨m, rfl, ?_, fun i _ => rfl⟩
    intro k hk
    exact absurd hk (Nat.not_lt_zero k)
  | cons p rest ih =>
    intro m address h
    have hlen : (p :: rest).length = rest.length + 1 := rfl
    have ha : address < 65535 := by rw [hlen] at h; omega
    have hw : m.write address (p.1 * 256 + p.2) =
        .ok ⟨fun i => if i = address then p.1 * 256 + p.2 else m.data i⟩ := by
      simp [Memory.write, MEM_LEN, ha]
    have hu : uadd address 1 = .ok (address + 1) := by
      unfold uadd
      rw [if_pos (by omega)]
    obtain ⟨m2, hloop, hwords, hother⟩ :=
      ih ⟨fun i => if i = address then p.1 * 256 + p.2 else m.data i⟩ (address + 1)
        (by rw [hlen] at h; omega)
    refine ⟨m2, ?_, ?_, ?_⟩
    · simp only [wordsBytes]
      unfold load_loop
      rw [hw]
      simp only [Outcome.monad_bind, Outcome.bind_ok]
      rw [hu]
      simpa using hloop
    · intro k hk
      cases k with
      | zero =>
        rw [Nat.add_zero, hother address (Or.inl (by omega))]
        simp [beWord]
      | succ k2 =>
        have hk2 : k2 < rest.length := by rw [hlen] at hk; omega
        have hv := hwords k2 hk2
        rw [show address + (k2 + 1) = address + 1 + k2 by omega, hv]
        rfl
    · intro i hi
      rw [hother i (by rw [hlen] at hi; omega)]
      have : i ≠ address := by rw [hlen] at hi; omega
      simp [this]

/-- C3 counterexample: the image `[0x30, 0x00, 0x10, 0x01, 0xFF]`, whose
stream ends after an odd trailing byte, loads with `Ok` — the word 0x1001
lands at 0x3000 and the trailing 0xFF is silently discarded — instead of
yielding the I/O error the claim requires. -/
theorem loader_accepts_odd_trailing_byte :
    ∃ lc, LittleComputer3.default.load_program [0x30, 0x00, 0x10, 0x01, 0xFF] = .ok lc
      ∧ lc.memory.data 0x3000 = 0x1001 :=
  ⟨_, rfl, rfl⟩

/-- C3 (amended): `load_program` reads the first two bytes big-endian as the
origin and loads consecutive big-endian words from there; a clean
end-of-stream between word boundaries is `Ok` with the program fully
loaded, and a stream ending after an odd trailing byte is ALSO `Ok` with
exactly the same final state — `read_exact` reports the mid-word end of
stream as `UnexpectedEof`, which the loader treats as a clean break,
silently discarding the odd byte. -/
theorem load_program_spec (lc : LittleComputer3) (o1 o2 b : Nat)
    (ws : List (Nat × Nat)) (h : o1 * 256 + o2 + ws.length ≤ 65535) :
    ∃ lc2, lc.load_program (o1 :: o2 :: wordsBytes ws) = .ok lc2
      ∧ lc.load_program (o1 :: o2 :: (wordsBytes ws ++ [b])) = .ok lc2
      ∧ (∀ k (hk : k < ws.length),
          lc2.memory.data (o1 * 256 + o2 + k) = beWord (ws.get ⟨k, hk⟩))
      ∧ (∀ i, i < o1 * 256 + o2 ∨ o1 * 256 + o2 + ws.length ≤ i →
          lc2.memory.data i = lc.memory.data i)
      ∧ lc2.registers = lc.registers := by
  obtain ⟨m2, hloop, hwords, hother⟩ := load_loop_ok ws lc.memory (o1 * 256 + o2) h
  refine ⟨{ lc with memory := m2 }, ?_, ?_, hwords, hother, rfl⟩
  · simp [LittleComputer3.load_program, hloop]
  · simp [LittleComputer3.load_program, load_loop_drop_odd, hloop]

/-- Witness for C3 on the spec's own loader example, with and without an
odd trailing byte. -/
theorem load_program_spec_witness :
    ∃ lc2, LittleComputer3.default.load_program
        (0x30 :: 0x00 :: wordsBytes [(0x10, 0x01)]) = .ok lc2
      ∧ LittleComputer3.default.load_program
        (0x30 :: 0x00 :: (wordsBytes [(0x10, 0x01)] ++ [0xFF])) = .ok lc2
      ∧ (∀ k (hk : k < [(0x10, 0x01)].length),
          lc2.memory.data (0x30 * 256 + 0x00 + k) = beWord ([(0x10, 0x01)].get ⟨k, hk⟩))
      ∧ (∀ i, i < 0x30 * 256 + 0x00 ∨ 0x30 * 256 + 0x00 + [(0x10, 0x01)].length ≤ i →
          lc2.memory.data i = LittleComputer3.default.memory.data i)
      ∧ lc2.registers = LittleComputer3.default.registers :=
  load_program_spec LittleComputer3.default 0x30 0x00 0xFF [(0x10, 0x01)] (by decide)

/-- An out-of-range trap vector decodes to `UnknownTrapRoutine` carrying
the raw vector. -/
theorem trap_tryFrom_out_of_range (u : Nat) (h : ¬(0x20 ≤ u ∧ u ≤ 0x25)) :
    TrapRoutine.tryFrom u = .error (.UnknownTrapRoutine u) := by
  unfold TrapRoutine.tryFrom
  rw [if_neg (by omega), if_neg (by omega), if_neg (by omega),
    if_neg (by omega), if_neg (by omega), if_neg (by omega)]

/-- C8: `Instructions::read` fails exactly on words whose top 4 bits are
0xF and whose low byte is outside 0x20..0x25, and then with
`UnknownTrapRoutine` carrying the raw low byte; every other 16-bit word
decodes successfully, and `UnknownRegister` / `UnknownInstruction` are
never produced by a decode of a 16-bit word. -/
theorem decode_error_iff (v : Nat) (hv : v < 65536) :
    (if v >>> 12 = 15 ∧ ¬(0x20 ≤ v &&& 0xFF ∧ v &&& 0xFF ≤ 0x25)
      then Instructions.read v = .error (.UnknownTrapRoutine (v &&& 0xFF))
      else ∃ i, Instructions.read v = .ok i)
    ∧ (∀ x, Instructions.read v ≠ .error (.UnknownRegister x))
    ∧ (∀ x, Instructions.read v ≠ .error (.UnknownInstruction x)) := by
  have h16 : v >>> 12 < 16 := by
    rw [Nat.shiftRight_eq_div_pow]
    omega
  have hmain : if v >>> 12 = 15 ∧ ¬(0x20 ≤ v &&& 0xFF ∧ v &&& 0xFF ≤ 0x25)
      then Instructions.read v = .error (.UnknownTrapRoutine (v &&& 0xFF))
      else ∃ i, Instructions.read v = .ok i := by
    by_cases h15 : v >>> 12 = 15
    · by_cases hrange : 0x20 ≤ v &&& 0xFF ∧ v &&& 0xFF ≤ 0x25
      · rw [if_neg (fun hc => hc.2 hrange)]
        have h32 : 0x20 ≤ v &&& 0xFF := hrange.1
        have h37 : v &&& 0xFF ≤ 0x25 := hrange.2
        generalize hu : v &&& 0xFF = u at h32 h37
        simp only [Instructions.read, h15, hu]
        norm_num
        interval_cases u <;> exact ⟨_, rfl⟩
      · rw [if_pos ⟨h15, hrange⟩]
        simp only [Instructions.read, h15]
        norm_num
        rw [trap_tryFrom_out_of_range (v &&& 0xFF) hrange]
        rfl
    · rw [if_neg (fun hc => h15 hc.1)]
      have ht : v >>> 12 = 0 ∨ v >>> 12 = 1 ∨ v >>> 12 = 2 ∨ v >>> 12 = 3 ∨
          v >>> 12 = 4 ∨ v >>> 12 = 5 ∨ v >>> 12 = 6 ∨ v >>> 12 = 7 ∨
          v >>> 12 = 8 ∨ v >>> 12 = 9 ∨ v >>> 12 = 10 ∨ v >>> 12 = 11 ∨
          v >>> 12 = 12 ∨ v >>> 12 = 13 ∨ v >>> 12 = 14 := by omega
      obtain ⟨rA, hA⟩ := RegistersEnum.tryFrom_and7 (v >>> 9)
      obtain ⟨rB, hB⟩ := RegistersEnum.tryFrom_and7 (v >>> 6)
      obtain ⟨rC, hC⟩ := RegistersEnum.tryFrom_and7 v
      rcases ht with h|h|h|h|h|h|h|h|h|h|h|h|h|h|h
      · simp only [Instructions.read, h]
        exact ⟨_, rfl⟩
      · simp only [Instructions.read, h]
        norm_num
        rw [hA, hB]
        norm_num
        simp only [hC, ebind_ok]
        split
        · exact ⟨_, rfl⟩
        · exact ⟨_, rfl⟩
      · simp only [Instructions.read, h]
        norm_num
        rw [hA]
        exact ⟨_, rfl⟩
      · simp only [Instructions.read, h]
        norm_num
        rw [hA]
        exact ⟨_, rfl⟩
      · simp only [Instructions.read, h]
        norm_num
        simp only [hB, ebind_ok]
        split
        · exact ⟨_, rfl⟩
        · exact ⟨_, rfl⟩
      · simp only [Instructions.read, h]
        norm_num
        rw [hA, hB]
        norm_num
        simp only [hC, ebind_ok]
        split
        · exact ⟨_, rfl⟩
        · exact ⟨_, rfl⟩
      · simp only [Instructions.read, h]
        norm_num
        rw [hA, hB]
        exact ⟨_, rfl⟩
      · simp only [Instructions.read, h]
        norm_num
        rw [hA, hB]
        exact ⟨_, rfl⟩
      · simp only [Instructions.read, h]
        norm_num
      · simp only [Instructions.read, h]
        norm_num
        rw [hA, hB]
        exact ⟨_, rfl⟩
      · simp only [Instructions.read, h]
        norm_num
        rw [hA]
        exact ⟨_, rfl⟩
      · simp only [Instructions.read, h]
        norm_num
        rw [hA]
        exact ⟨_, rfl⟩
      · simp only [Instructions.read, h]
        norm_num
        rw [hB]
        exact ⟨_, rfl⟩
      · simp only [Instructions.read, h]
        norm_num
      · simp only [Instructions.read, h]
        norm_num
        rw [hA]
        exact ⟨_, rfl⟩
  have hmain2 := hmain
  refine ⟨hmain, fun x hx => ?_, fun x hx => ?_⟩
  · by_cases hcond : v >>> 12 = 15 ∧ ¬(0x20 ≤ v &&& 0xFF ∧ v &&& 0xFF ≤ 0x25)
    · rw [if_pos hcond] at hmain2
      rw [hmain2] at hx
      simp at hx
    · rw [if_neg hcond] at hmain2
      obtain ⟨i, hi⟩ := hmain2
      rw [hi] at hx
      simp at hx
  · by_cases hcond : v >>> 12 = 15 ∧ ¬(0x20 ≤ v &&& 0xFF ∧ v &&& 0xFF ≤ 0x25)
    · rw [if_pos hcond] at hmain2
      rw [hmain2] at hx
      simp at hx
    · rw [if_neg hcond] at hmain2
      obtain ⟨i, hi⟩ := hmain2
      rw [hi] at hx
      simp at hx

/-- Witness for C8: 0xF026 is a trap word with vector 0x26 ∉ 0x20..0x25,
so decode returns `UnknownTrapRoutine`; and it never yields the other two
decode errors. -/
theorem decode_error_iff_witness :
    (if (0xF026 : Nat) >>> 12 = 15 ∧
        ¬(0x20 ≤ (0xF026 : Nat) &&& 0xFF ∧ (0xF026 : Nat) &&& 0xFF ≤ 0x25)
      then Instructions.read 0xF026 = .error (.UnknownTrapRoutine (0xF026 &&& 0xFF))
      else ∃ i, Instructions.read 0xF026 = .ok i)
    ∧ (∀ x, Instructions.read 0xF026 ≠ .error (.UnknownRegister x))
    ∧ (∀ x, Instructions.read 0xF026 ≠ .error (.UnknownInstruction x)) :=
  decode_error_iff 0xF026 (by decide)

/-- Setting any register other than `Condition` leaves `Condition` alone. -/
theorem Registers.get_condition_set (r : Registers) (reg : RegistersEnum) (v : Nat)
    (h : reg ≠ .condition) : (r.set reg v).get .condition = r.get .condition := by
  rw [Registers.get_set, if_neg]
  intro hh
  exact h ((RegistersEnum.toIndex_inj reg .condition).mp hh.symm)

/-- Every successfully executed instruction either leaves the `Condition`
register unchanged or ends by running `update_flags`, which stores one of
the three flag discriminants. -/
theorem execute_condition (i : Instructions) (w w2 : World)
    (h : i.execute w = .ok w2) :
    w2.registers.get .condition = w.registers.get .condition ∨
    exactlyOneFlagSet (w2.registers.get .condition) := by
  cases i with
  | Add destination source1 source2 =>
    simp only [Instructions.execute] at h
    simp at h
    right
    rw [← h]
    exact Registers.update_flags_flag _ _
  | And destination source1 source2 =>
    simp only [Instructions.execute] at h
    simp at h
    right
    rw [← h]
    exact Registers.update_flags_flag _ _
  | Not destination source1 =>
    simp only [Instructions.execute] at h
    simp at h
    right
    rw [← h]
    exact Registers.update_flags_flag _ _
  | LoadEffectiveAddress destination pc_offset =>
    simp only [Instructions.execute] at h
    simp at h
    right
    rw [← h]
    exact Registers.update_flags_flag _ _
  | Branch pc_offset condition_flag =>
    simp only [Instructions.execute] at h
    split at h
    · simp at h
      left
      rw [← h]
      exact Registers.get_condition_set _ _ _ (by decide)
    · simp at h
      left
      rw [← h]
  | Jump source =>
    simp only [Instructions.execute] at h
    simp at h
    left
    rw [← h]
    exact Registers.get_condition_set _ _ _ (by decide)
  | JumpRegister jump =>
    cases jump with
    | Long pc_offset =>
      simp only [Instructions.execute] at h
      simp at h
      left
      rw [← h]
      rw [Registers.get_condition_set _ _ _ (by decide),
        Registers.get_condition_set _ _ _ (by decide)]
    | Register register =>
      simp only [Instructions.execute] at h
      simp at h
      left
      rw [← h]
      rw [Registers.get_condition_set _ _ _ (by decide),
        Registers.get_condition_set _ _ _ (by decide)]
  | Load destination pc_offset =>
    simp only [Instructions.execute] at h
    cases hr : w.memRead (oadd (w.registers.get .programCounter) pc_offset) with
    | ok t =>
      rw [hr] at h
      obtain ⟨v, w1⟩ := t
      simp at h
      right
      rw [← h]
      exact Registers.update_flags_flag _ _
    | err e => rw [hr] at h; simp at h
    | panic => rw [hr] at h; simp at h
    | exit c => rw [hr] at h; simp at h
  | LoadRegister destination source1 offset =>
    simp only [Instructions.execute] at h
    cases hr : w.memRead (oadd (w.registers.get source1) offset) with
    | ok t =>
      rw [hr] at h
      obtain ⟨v, w1⟩ := t
      simp at h
      right
      rw [← h]
      exact Registers.update_flags_flag _ _
    | err e => rw [hr] at h; simp at h
    | panic => rw [hr] at h; simp at h
    | exit c => rw [hr] at h; simp at h
  | LoadIndirect destination pc_offset =>
    simp only [Instructions.execute] at h
    cases hu : uadd (w.registers.get .programCounter) pc_offset with
    | ok a =>
      rw [hu] at h
      simp at h
      cases hr : w.memRead a with
      | ok t =>
        rw [hr] at h
        obtain ⟨address, w1⟩ := t
        simp at h
        cases hr2 : w1.memRead address with
        | ok t2 =>
          rw [hr2] at h
          obtain ⟨v, w3⟩ := t2
          simp at h
          right
          rw [← h]
          exact Registers.update_flags_flag _ _
        | err e => rw [hr2] at h; simp at h
        | panic => rw [hr2] at h; simp at h
        | exit c => rw [hr2] at h; simp at h
      | err e => rw [hr] at h; simp at h
      | panic => rw [hr] at h; simp at h
      | exit c => rw [hr] at h; simp at h
    | err e => rw [hu] at h; simp at h
    | panic => rw [hu] at h; simp at h
    | exit c => rw [hu] at h; simp at h
  | Store source pc_offset =>
    simp only [Instructions.execute] at h
    left
    rw [World.memWrite_registers _ _ _ _ h]
  | StoreRegister source1 source2 offset =>
    simp only [Instructions.execute] at h
    left
    rw [World.memWrite_registers _ _ _ _ h]
  | StoreIndirect source pc_offset =>
    simp only [Instructions.execute] at h
    cases hr : w.memRead (oadd (w.registers.get .programCounter) pc_offset) with
    | ok t =>
      rw [hr] at h
      obtain ⟨address, w1⟩ := t
      simp at h
      left
      rw [World.memWrite_registers _ _ _ _ h,
        World.memRead_registers _ _ _ _ hr]
    | err e => rw [hr] at h; simp at h
    | panic => rw [hr] at h; simp at h
    | exit c => rw [hr] at h; simp at h
  | RES => simp only [Instructions.execute] at h; exact Outcome.noConfusion h
  | RTI => simp only [Instructions.execute] at h; exact Outcome.noConfusion h
  | Trap routine =>
    cases routine with
    | GETC =>
      simp only [Instructions.execute] at h
      cases hi : w.input with
      | nil => rw [hi] at h; exact Outcome.noConfusion h
      | cons b rest =>
        rw [hi] at h
        simp at h
        left
        rw [← h]
        exact Registers.get_condition_set _ _ _ (by decide)
    | OUT =>
      simp only [Instructions.execute] at h
      simp at h
      left
      rw [← h]
    | IN =>
      simp only [Instructions.execute] at h
      cases hi : w.input with
      | nil => rw [hi] at h; simp at h
      | cons b rest =>
        rw [hi] at h
        simp at h
        left
        rw [← h]
        exact Registers.get_condition_set _ _ _ (by decide)
    | HALT =>
      simp only [Instructions.execute] at h
      exact Outcome.noConfusion h
    | PUTS =>
      simp only [Instructions.execute] at h
      cases hp : puts_loop w (w.registers.get .r0) 65536 with
      | ok w1 =>
        rw [hp] at h
        simp at h
        left
        rw [← h]
        exact congrArg (fun r => Registers.get r .condition)
          (puts_loop_registers 65536 w _ w1 hp)
      | err e => rw [hp] at h; simp at h
      | panic => rw [hp] at h; simp at h
      | exit c => rw [hp] at h; simp at h
    | PUTSP =>
      simp only [Instructions.execute] at h
      cases hp : putsp_loop w (w.registers.get .r0) 65536 with
      | ok w1 =>
        rw [hp] at h
        simp at h
        left
        rw [← h]
        exact congrArg (fun r => Registers.get r .condition)
          (putsp_loop_registers 65536 w _ w1 hp)
      | err e => rw [hp] at h; simp at h
      | panic => rw [hp] at h; simp at h
      | exit c => rw [hp] at h; simp at h

/-- C5 (amended): the one-flag invariant does not hold at machine creation
(the `Condition` register starts at 0, no flag set — see the
counterexample), but it is established by every `update_flags` call and
preserved by every successfully executed instruction: if exactly one of
{Negative, Zero, Positive} is set before an instruction executes, exactly
one is set afterwards. -/
theorem condition_flag_invariant :
    (∀ (r : Registers) (register : RegistersEnum),
      exactlyOneFlagSet ((r.update_flags register).get .condition))
    ∧ (∀ (i : Instructions) (w w2 : World), i.execute w = .ok w2 →
      exactlyOneFlagSet (w.registers.get .condition) →
      exactlyOneFlagSet (w2.registers.get .condition)) := by
  refine ⟨Registers.update_flags_flag, fun i w w2 h hw => ?_⟩
  rcases execute_condition i w w2 h with he | he
  · rw [he]
    exact hw
  · exact he

/-- Witness for C5 (amended): a `Not` instruction executed from a state
whose `Condition` holds the `Zero` flag again ends with exactly one flag. -/
theorem condition_flag_invariant_witness :
    exactlyOneFlagSet
      ((World.mk (((Registers.default.set .condition FL_ZRO).set .r0
          ((Registers.default.set .condition FL_ZRO).get .r0 ^^^ 65535)).update_flags .r0)
        Memory.default [] OutputSink.empty).registers.get .condition) :=
  condition_flag_invariant.2 (.Not .r0 .r0)
    (World.mk (Registers.default.set .condition FL_ZRO) Memory.default [] OutputSink.empty)
    (World.mk (((Registers.default.set .condition FL_ZRO).set .r0
        ((Registers.default.set .condition FL_ZRO).get .r0 ^^^ 65535)).update_flags .r0)
      Memory.default [] OutputSink.empty)
    rfl (by decide)

end LC3
